import Mathlib

/-!
Verification of the LangGraph chatbot orchestrator (TypeScript sources:
src/chatbot.ts with the human-in-the-loop graph, src/tools.ts, src/server.ts).

Strings from the source are modelled as lists of characters (type Str), so
that every string operation used by the code (includes, trim, toLowerCase,
toUpperCase, split, indexOf) is an explicit executable Lean function.
LLM calls and network-backed tool invocations are modelled as oracle
function parameters: an oracle value of Except.error e models the
corresponding promise rejecting with message e.
-/

namespace Chatbot

/-- Character lists standing for JavaScript strings. -/
abbrev Str := List Char

/-- Embed a Lean string literal as a character list. -/
def str (s : String) : Str := s.data

/-- JavaScript s.includes(pat): pat occurs as a contiguous substring of s. -/
def containsSub (s pat : Str) : Bool :=
  match s with
  | [] => pat.isPrefixOf ([] : Str)
  | _ :: t => pat.isPrefixOf s || containsSub t pat

/-- JavaScript s.toUpperCase (ASCII letters, as used by the source). -/
def upperStr (s : Str) : Str := s.map Char.toUpper

/-- JavaScript s.toLowerCase (ASCII letters, as used by the source). -/
def lowerStr (s : Str) : Str := s.map Char.toLower

/-- JavaScript s.trim: strip leading and trailing whitespace. -/
def trimWs (s : Str) : Str :=
  ((s.dropWhile Char.isWhitespace).reverse.dropWhile Char.isWhitespace).reverse

/-- JavaScript s.split(sep) for a one-character separator. -/
def splitCh (sep : Char) : Str → List Str
  | [] => [[]]
  | c :: t =>
    let r := splitCh sep t
    if c = sep then [] :: r
    else
      match r with
      | [] => [[c]]
      | h :: t2 => (c :: h) :: t2

/-- The substring after the first occurrence of c, or none when c does not
occur: models indexOf(c) combined with substring(colonIndex + 1). -/
def afterFirst (c : Char) : Str → Option Str
  | [] => none
  | x :: t => if x = c then some t else afterFirst c t

/-- A regex word character (JavaScript \w over the ASCII inputs involved). -/
def isWordChar (c : Char) : Bool := c.isAlphanum || c = '_'

/-- Whether the word w occurs in input bounded by word boundaries on both
sides: the regex test for a single alternative of a \b(...)\b pattern. -/
def hasWord (input w : Str) : Bool :=
  (List.range (input.length + 1)).any fun i =>
    w.isPrefixOf (input.drop i)
    && (i == 0 || !(isWordChar (input.getD (i - 1) ' ')))
    && (decide (input.length ≤ i + w.length)
        || !(isWordChar (input.getD (i + w.length) ' ')))

/-- The regex test for a full alternation pattern \b(w1|w2|...)\b. -/
def hasAnyWord (input : Str) (ws : List Str) : Bool := ws.any (hasWord input)

/-- The detected intent kinds of the state field userIntent. -/
inductive Intent
  | greeting
  | question
  | farewell
  | unknown
deriving DecidableEq, Repr

/-- Arguments carried by a tool call, shaped after the zod schemas of the
three tools in src/tools.ts. Operations and numbers: calculator; a single
location string: get_weather; a single query string: web_search. -/
inductive ToolArgs
  | calcArgs (operation : Str) (a b : Rat)
  | weatherArgs (location : Str)
  | searchArgs (query : Str)
deriving DecidableEq, Repr

/-- A tool call proposed by an assistant message. -/
structure ToolCall where
  id : Str
  name : Str
  args : ToolArgs
deriving DecidableEq, Repr

/-- The location argument that the validator reads from a tool call
(toolCall.args.location as string). The source reads it only on calls named
get_weather, whose schema guarantees a location field. -/
def locationOf : ToolArgs → Str
  | .weatherArgs l => l
  | _ => []

/-- A conversation-log entry: HumanMessage, AIMessage (with tool_calls), or
ToolMessage (with tool_call_id). -/
inductive Message
  | human (content : Str)
  | ai (content : Str) (toolCalls : List ToolCall)
  | tool (content : Str) (toolCallId : Str)
deriving DecidableEq, Repr

/-- The content field common to all message kinds. -/
def contentOf : Message → Str
  | .human c => c
  | .ai c _ => c
  | .tool c _ => c

/-- lastMessage.tool_calls on an arbitrary message, with undefined tool_calls
(non-AI messages) falling to the empty list as in lastMessage.tool_calls || []. -/
def toolCallsOf : Message → List ToolCall
  | .ai _ tcs => tcs
  | _ => []

/-- The tool_call_id of a ToolMessage, none for the other kinds. -/
def toolCallIdOf : Message → Option Str
  | .tool _ id => some id
  | _ => none

/-- The graph state defined by the state annotation: messages plus the
scalar fields with their defaults. -/
structure ChatState where
  messages : List Message
  userIntent : Intent
  conversationCount : Nat
  needsApproval : Bool
  pendingToolCalls : List ToolCall
  approvalMessage : Str
deriving DecidableEq, Repr

/-- The default state given by the per-field default functions. -/
def defaultState : ChatState :=
  { messages := []
    userIntent := .unknown
    conversationCount := 0
    needsApproval := false
    pendingToolCalls := []
    approvalMessage := [] }

/-- A partial state update returned by a node. An absent scalar field is
none, meaning unchanged under the reducer y ?? x; messages are always
concatenated, so an absent messages field and an empty list coincide. -/
structure Delta where
  messages : List Message := []
  userIntent : Option Intent := none
  conversationCount : Option Nat := none
  needsApproval : Option Bool := none
  pendingToolCalls : Option (List ToolCall) := none
  approvalMessage : Option Str := none
deriving DecidableEq, Repr

/-- Merge a node-returned delta into the state through the per-field
reducers: concatenation for messages, replace-if-present for the rest. -/
def applyDelta (s : ChatState) (d : Delta) : ChatState :=
  { messages := s.messages ++ d.messages
    userIntent := d.userIntent.getD s.userIntent
    conversationCount := d.conversationCount.getD s.conversationCount
    needsApproval := d.needsApproval.getD s.needsApproval
    pendingToolCalls := d.pendingToolCalls.getD s.pendingToolCalls
    approvalMessage := d.approvalMessage.getD s.approvalMessage }

/-- state.messages[state.messages.length - 1]. Every node reads it only on a
non-empty log (the source would fault otherwise); the default is inert. -/
def lastMsgD (ms : List Message) : Message := ms.getLastD (Message.human [])

/-- The tool calls carried by the last message of the log. -/
def toolCallsOfLast (s : ChatState) : List ToolCall := toolCallsOf (lastMsgD s.messages)

/-- The text of the last message, the input read by analyzeIntent. -/
def lastContent (s : ChatState) : Str := contentOf (lastMsgD s.messages)

/-! ## Tools (src/tools.ts) -/

/-- The calculator tool body: a switch over the operation string. Numbers are
modelled as rationals; numStr renders one for the result templates (the
JavaScript float formatting itself is not analysed by any claim). -/
def numStr (q : Rat) : Str := (toString q).data

/-- The calculator tool of src/tools.ts: pure arithmetic with a guarded
divide-by-zero branch and a default branch for an unknown operation. -/
def calculatorTool (operation : Str) (a b : Rat) : Str :=
  if operation = str "add" then
    numStr a ++ str " + " ++ numStr b ++ str " = " ++ numStr (a + b)
  else if operation = str "subtract" then
    numStr a ++ str " - " ++ numStr b ++ str " = " ++ numStr (a - b)
  else if operation = str "multiply" then
    numStr a ++ str " * " ++ numStr b ++ str " = " ++ numStr (a * b)
  else if operation = str "divide" then
    if b = 0 then str "Error: Cannot divide by zero"
    else numStr a ++ str " / " ++ numStr b ++ str " = " ++ numStr (a / b)
  else str "Error: Unknown operation"

/-- The four operation names admitted by the calculator zod schema. -/
def calcOps : List Str := [str "add", str "subtract", str "multiply", str "divide"]

/-- The names of the tools in the exported tools array, in order: the set
searched by tools.find(t => t.name === toolCall.name). -/
def toolNames : List Str := [str "calculator", str "get_weather", str "web_search"]

/-! ## Graph nodes (src/chatbot.ts, human-in-the-loop version) -/

/-- The fixed greeting response text of handleGreeting. -/
def greetingText : Str :=
  str "Hello! I\x27m a chatbot built with LangGraph. I can help answer your questions. What would you like to know?"

/-- The fixed farewell response text of handleFarewell. -/
def farewellText : Str :=
  str "Goodbye! It was nice chatting with you. Feel free to come back anytime!"

/-- handleGreeting: append the fixed greeting and bump the counter. -/
def handleGreeting (s : ChatState) : Delta :=
  { messages := [Message.ai greetingText []]
    conversationCount := some (s.conversationCount + 1) }

/-- handleFarewell: append the fixed farewell and bump the counter. -/
def handleFarewell (s : ChatState) : Delta :=
  { messages := [Message.ai farewellText []]
    conversationCount := some (s.conversationCount + 1) }

/-- handleQuestion: invoke the tool-bound model on the full log and append
its assistant message. The oracle ask stands for model.invoke(state.messages)
and yields the content and tool_calls of the returned AIMessage. -/
def handleQuestion (ask : List Message → Str × List ToolCall) (s : ChatState) : Delta :=
  { messages := [Message.ai (ask s.messages).1 (ask s.messages).2]
    conversationCount := some (s.conversationCount + 1) }

/-- The words of the greeting fallback regex \b(hi|hello|hey|greetings)\b. -/
def greetingWords : List Str := [str "hi", str "hello", str "hey", str "greetings"]

/-- The words of the farewell fallback regex \b(bye|goodbye|see you|farewell)\b. -/
def farewellWords : List Str := [str "bye", str "goodbye", str "see you", str "farewell"]

/-- The keyword fallback of analyzeIntent, applied to the lower-cased input
after an LLM failure. -/
def fallbackIntent (lowerInput : Str) : Intent :=
  if hasAnyWord lowerInput greetingWords then .greeting
  else if hasAnyWord lowerInput farewellWords then .farewell
  else .question

/-- Map the trimmed, lower-cased LLM classification output onto an intent:
the if-chain over includes checks, with the final else defaulting to
question for unrecognized outputs. -/
def mapDetected (detectedIntent : Str) : Intent :=
  if containsSub detectedIntent (str "greeting") then .greeting
  else if containsSub detectedIntent (str "farewell") then .farewell
  else if containsSub detectedIntent (str "question") then .question
  else .question

/-- analyzeIntent: classify the last message with the LLM; on an LLM error
fall back to the keyword regexes. The oracle intentLLM stands for the
classification call on the prompt built from the user input (the prompt is a
fixed template around the input, so it is keyed by the input text). -/
def analyzeIntent (intentLLM : Str → Except Str Str) (s : ChatState) : Delta :=
  let userInput := lastContent s
  match intentLLM userInput with
  | .ok response =>
    { userIntent := some (mapDetected (lowerStr (trimWs response))) }
  | .error _ =>
    { userIntent := some (fallbackIntent (lowerStr userInput)) }

/-- One tool invocation inside callTools. The oracle outcome stands for the
settlement of (tool named tc.name).invoke(tc.args): ok is the returned
string, error the rejection message caught by the try/catch. A name outside
the tools array takes the tool-not-found branch. -/
def execToolCall (outcome : ToolCall → Except Str Str) (tc : ToolCall) : Message :=
  if toolNames.contains tc.name then
    match outcome tc with
    | .ok r => Message.tool r tc.id
    | .error e => Message.tool (str "Error: " ++ e) tc.id
  else
    Message.tool (str "Error: Tool \x22" ++ tc.name ++ str "\x22 not found") tc.id

/-- callTools: execute every tool call of the last message (the parallel
fan-out settles each call independently), convert each settlement into a
ToolMessage correlated by tool_call_id, and clear the approval fields; with
no tool calls it returns only an empty messages delta. -/
def callTools (outcome : ToolCall → Except Str Str) (s : ChatState) : Delta :=
  let toolCalls := toolCallsOfLast s
  if toolCalls.isEmpty then { messages := [] }
  else
    { messages := toolCalls.map (execToolCall outcome)
      needsApproval := some false
      pendingToolCalls := some []
      approvalMessage := some [] }

/-- Whether a location argument is single-word: no comma and no space. -/
def isSingleWord (location : Str) : Bool :=
  !(location.contains ',') && !(location.contains ' ')

/-- The example extraction of the blocked branch: take the text after the
first colon of the judge answer, split it on semicolons, trim, drop empties,
quote the first three and join with or; fall back to a location template
when nothing was extracted. -/
def extractExamples (answer location : Str) : Str :=
  let examples : Str :=
    match afterFirst ':' answer with
    | none => []
    | some rest =>
      let exampleList := ((splitCh ';' (trimWs rest)).map trimWs).filter
        fun e => decide (0 < e.length)
      List.intercalate (str " or ")
        ((exampleList.take 3).map fun e => str "\x22" ++ e ++ str "\x22")
  if examples = [] then str "\x22" ++ location ++ str ", [State/Country]\x22"
  else examples

/-- The delta returned on the blocked path: one clarification ToolMessage
for the ambiguous call, needsApproval set, the full pending set recorded,
and the approval prompt built from the location and extracted examples. -/
def blockedDelta (all : List ToolCall) (tcId location answer : Str) : Delta :=
  { messages := [Message.tool
      (str "[Requesting clarification] The location \x22" ++ location
        ++ str "\x22 is ambiguous. Asking user to specify.") tcId]
    needsApproval := some true
    pendingToolCalls := some all
    approvalMessage := some (str "I found that \x22" ++ location
      ++ str "\x22 could refer to multiple cities. To get accurate weather data, could you please specify which "
      ++ location ++ str " you mean? For example: " ++ extractExamples answer location) }

/-- The for-loop of validateToolCalls over the pending tool calls: only a
get_weather call with a single-word location is submitted to the judge; an
AMBIGUOUS answer blocks with the full pending set, any other answer or a
judge error falls through to the next call; exhausting the loop approves. -/
def validateLoop (judge : Str → Except Str Str) (all : List ToolCall) :
    List ToolCall → Delta
  | [] => { needsApproval := some false }
  | tc :: rest =>
    if tc.name = str "get_weather" then
      let location := locationOf tc.args
      if isSingleWord location then
        match judge location with
        | .ok response =>
          let answer := trimWs response
          if containsSub (upperStr answer) (str "AMBIGUOUS") then
            blockedDelta all tc.id location answer
          else validateLoop judge all rest
        | .error _ => validateLoop judge all rest
      else validateLoop judge all rest
    else validateLoop judge all rest

/-- validateToolCalls: run the validation loop over the tool calls of the
last message. The oracle judge stands for the ambiguity-judgment LLM call on
the prompt built from the location. -/
def validateToolCalls (judge : Str → Except Str Str) (s : ChatState) : Delta :=
  validateLoop judge (toolCallsOfLast s) (toolCallsOfLast s)

/-! ## Routers and the compiled graph (createChatbot) -/

/-- The nodes of the human-in-the-loop graph. -/
inductive Node
  | analyzeIntentN
  | greetingN
  | farewellN
  | questionN
  | validateN
  | toolsN
deriving DecidableEq, Repr

/-- routeByIntent: the conditional edge out of analyzeIntent, with the
default case falling to the question handler. -/
def routeByIntent (s : ChatState) : Node :=
  match s.userIntent with
  | .greeting => .greetingN
  | .farewell => .farewellN
  | .question => .questionN
  | .unknown => .questionN

/-- shouldContinue: the conditional edge out of question; none models END. -/
def shouldContinue (s : ChatState) : Option Node :=
  if 0 < (toolCallsOfLast s).length then some .validateN else none

/-- needsApprovalRouter: the conditional edge out of validate; none models
END (pausing for human input). -/
def needsApprovalRouter (s : ChatState) : Option Node :=
  if s.needsApproval then none else some .toolsN

/-- The oracle bundle for one graph run: the intent-classification LLM, the
tool-bound answer LLM, the ambiguity judge, and the tool settlements. -/
structure Oracles where
  intentLLM : Str → Except Str Str
  ask : List Message → Str × List ToolCall
  judge : Str → Except Str Str
  invokeTool : ToolCall → Except Str Str

/-- Run the body of one node. -/
def runNode (o : Oracles) : Node → ChatState → Delta
  | .analyzeIntentN, s => analyzeIntent o.intentLLM s
  | .greetingN, s => handleGreeting s
  | .farewellN, s => handleFarewell s
  | .questionN, s => handleQuestion o.ask s
  | .validateN, s => validateToolCalls o.judge s
  | .toolsN, s => callTools o.invokeTool s

/-- The edge taken after a node, evaluated on the merged state: fixed edges
for greeting, farewell (END) and tools (back to question), routers for
analyzeIntent, question and validate; none is END. -/
def nextNode (n : Node) (s : ChatState) : Option Node :=
  match n with
  | .analyzeIntentN => some (routeByIntent s)
  | .greetingN => none
  | .farewellN => none
  | .questionN => shouldContinue s
  | .validateN => needsApprovalRouter s
  | .toolsN => some .questionN

/-- Execute the graph from a node with a fuel bound. The engine itself has
no iteration cap; fuel is the meta-level budget of node executions, and a
none result means the engine was still running when the budget ran out. -/
def runFrom (o : Oracles) : Nat → Node → ChatState → Option ChatState
  | 0, _, _ => none
  | fuel + 1, n, s =>
    let s2 := applyDelta s (runNode o n s)
    match nextNode n s2 with
    | none => some s2
    | some n2 => runFrom o fuel n2 s2

/-- graph.invoke: enter at analyzeIntent (the edge from START). -/
def invokeGraph (o : Oracles) (fuel : Nat) (input : ChatState) : Option ChatState :=
  runFrom o fuel .analyzeIntentN input

/-! ## HTTP server (src/server.ts) -/

/-- The per-session record held in the conversations map. -/
structure Conversation where
  messages : List Message
  conversationCount : Nat
deriving DecidableEq, Repr

/-- The in-memory conversations map, keyed by session identifier. -/
abbrev Store := List (Str × Conversation)

/-- conversations.get(sessionId). -/
def lookupStore (store : Store) (sessionId : Str) : Option Conversation :=
  (store.find? fun p => p.1 = sessionId).map Prod.snd

/-- conversations.set(sessionId, conversation): replace or add the entry. -/
def setStore (store : Store) (sessionId : Str) (conv : Conversation) : Store :=
  if store.any fun p => p.1 = sessionId then
    store.map fun p => if p.1 = sessionId then (sessionId, conv) else p
  else store ++ [(sessionId, conv)]

/-- The deduplicated first-seen tool-name extraction of the chat endpoint. -/
def collectToolsUsed (msgs : List Message) : List Str :=
  msgs.foldl
    (fun acc m =>
      match m with
      | .ai _ tcs =>
        tcs.foldl (fun a tc => if a.contains tc.name then a else a ++ [tc.name]) acc
      | _ => acc)
    []

/-- The JSON body returned by POST /api/chat on success. -/
structure ChatResponse where
  response : Str
  intent : Intent
  conversationCount : Nat
  toolsUsed : List Str
  needsApproval : Bool
deriving DecidableEq, Repr

/-- The graph input built by the endpoint: the stored messages (with the new
user message already pushed), userIntent reset to unknown, and the stored
count; the remaining fields start from their defaults. -/
def serverGraphInput (conv : Conversation) : ChatState :=
  { defaultState with
      messages := conv.messages
      userIntent := .unknown
      conversationCount := conv.conversationCount }

/-- POST /api/chat. The oracle invoke stands for chatbot.invoke; an error
value models the invocation rejecting, answered by the catch block with a
single 500 error. The user message is pushed into the stored conversation
record before the invocation, mirroring the in-place array push on the
object held by the map, so a failed invocation leaves it appended. -/
def chatApi (invoke : ChatState → Except Str ChatState) (store : Store)
    (sessionId message : Str) : Store × Except Str ChatResponse :=
  if message = [] then (store, .error (str "Message is required"))
  else
    let conv := (lookupStore store sessionId).getD { messages := [], conversationCount := 0 }
    let conv1 : Conversation := { conv with messages := conv.messages ++ [Message.human message] }
    let store1 := setStore store sessionId conv1
    match invoke (serverGraphInput conv1) with
    | .error e => (store1, .error e)
    | .ok result =>
      let conv2 : Conversation :=
        { messages := result.messages, conversationCount := result.conversationCount }
      let store2 := setStore store1 sessionId conv2
      if result.needsApproval && !(result.approvalMessage = []) then
        (store2, .ok
          { response := result.approvalMessage
            intent := result.userIntent
            conversationCount := result.conversationCount
            toolsUsed := []
            needsApproval := true })
      else
        (store2, .ok
          { response := contentOf (lastMsgD conv2.messages)
            intent := result.userIntent
            conversationCount := result.conversationCount
            toolsUsed := collectToolsUsed conv2.messages
            needsApproval := false })

/-! ## Reachability by node-returned deltas -/

/-- The deltas some node body can return in a given state, over every
possible oracle behaviour. -/
inductive NodeDelta (s : ChatState) : Delta → Prop
  | intent (o : Str → Except Str Str) : NodeDelta s (analyzeIntent o s)
  | greet : NodeDelta s (handleGreeting s)
  | farewell : NodeDelta s (handleFarewell s)
  | question (ask : List Message → Str × List ToolCall) :
      NodeDelta s (handleQuestion ask s)
  | validate (judge : Str → Except Str Str) : NodeDelta s (validateToolCalls judge s)
  | tools (outcome : ToolCall → Except Str Str) : NodeDelta s (callTools outcome s)

/-- States reachable from the default state by merging node-returned deltas
through the per-field reducers. -/
inductive ReachableState : ChatState → Prop
  | init : ReachableState defaultState
  | step {s d} : ReachableState s → NodeDelta s d → ReachableState (applyDelta s d)

/-! ## Concrete instances used by the evaluations and witnesses -/

/-- A get_weather call with the ambiguous single-word location Paris. -/
def parisCall : ToolCall :=
  { id := str "tc_w1", name := str "get_weather", args := .weatherArgs (str "Paris") }

/-- A calculator call, a tool the validator never examines. -/
def calcCall : ToolCall :=
  { id := str "tc_c1", name := str "calculator", args := .calcArgs (str "add") 1 2 }

/-- A judge that deems every submitted location ambiguous, answering in the
format requested by the validation prompt. -/
def judgeAmbiguous : Str → Except Str Str :=
  fun _ => .ok (str "AMBIGUOUS: Paris, France; Paris, Texas; Paris, Tennessee")

/-- A state whose last assistant message carries two tool calls, the
ambiguous weather call and a calculator call. -/
def stateTwoCalls : ChatState :=
  { defaultState with
      messages := [Message.human (str "weather in paris and 1 plus 2?"),
        Message.ai [] [parisCall, calcCall]] }

/-- An answer model that always proposes the single Paris weather call. -/
def askParis : List Message → Str × List ToolCall := fun _ => ([], [parisCall])

/-- An answer model that always proposes the single calculator call. -/
def askCalc : List Message → Str × List ToolCall := fun _ => ([], [calcCall])

/-- Reachable state after the question node proposed the Paris call. -/
def sA : ChatState := applyDelta defaultState (handleQuestion askParis defaultState)

/-- Reachable state after the validator blocked on the Paris call. -/
def sB : ChatState := applyDelta sA (validateToolCalls judgeAmbiguous sA)

/-- Reachable state of the next turn after intent classification. -/
def sC : ChatState :=
  applyDelta sB (analyzeIntent (fun _ => .ok (str "question")) sB)

/-- Reachable state after the next turn proposed the calculator call. -/
def sD : ChatState := applyDelta sC (handleQuestion askCalc sC)

/-- Reachable state after the validator approved the calculator call:
needsApproval is false while the stale pending fields survive. -/
def sE : ChatState := applyDelta sD (validateToolCalls judgeAmbiguous sD)

/-! ## Helper lemmas -/

/-- An append with a non-empty left part is non-empty. -/
lemma append_ne_nil_left {l : Str} (r : Str) (h : l ≠ []) : l ++ r ≠ [] := by
  intro hc
  exact h (List.append_eq_nil.mp hc).1

/-- An append with a non-empty right part is non-empty. -/
lemma append_ne_nil_right (l : Str) {r : Str} (h : r ≠ []) : l ++ r ≠ [] := by
  intro hc
  exact h (List.append_eq_nil.mp hc).2

/-- analyzeIntent only ever writes the userIntent field. -/
lemma analyzeIntent_shape (o : Str → Except Str Str) (s : ChatState) :
    ∃ i, analyzeIntent o s = { userIntent := some i } := by
  simp only [analyzeIntent]
  cases h : o (lastContent s) with
  | ok r => exact ⟨_, rfl⟩
  | error e => exact ⟨_, rfl⟩

/-- mapDetected never yields the unknown intent. -/
lemma mapDetected_ne_unknown (d : Str) : mapDetected d ≠ Intent.unknown := by
  unfold mapDetected
  split
  · simp
  · split
    · simp
    · split <;> simp

/-- The keyword fallback never yields the unknown intent. -/
lemma fallbackIntent_ne_unknown (l : Str) : fallbackIntent l ≠ Intent.unknown := by
  unfold fallbackIntent
  split
  · simp
  · split <;> simp

/-- The unfolding equation of one validation-loop step. -/
lemma validateLoop_cons (judge : Str → Except Str Str) (all : List ToolCall)
    (tc : ToolCall) (rest : List ToolCall) :
    validateLoop judge all (tc :: rest) =
      if tc.name = str "get_weather" then
        if isSingleWord (locationOf tc.args) then
          match judge (locationOf tc.args) with
          | .ok response =>
            if containsSub (upperStr (trimWs response)) (str "AMBIGUOUS") then
              blockedDelta all tc.id (locationOf tc.args) (trimWs response)
            else validateLoop judge all rest
          | .error _ => validateLoop judge all rest
        else validateLoop judge all rest
      else validateLoop judge all rest := rfl

/-- One loop step on a judged call whose judgment succeeded. -/
lemma validateLoop_ok_step (judge : Str → Except Str Str) (all : List ToolCall)
    (tc : ToolCall) (rest : List ToolCall) (response : Str)
    (hn : tc.name = str "get_weather") (hw : isSingleWord (locationOf tc.args) = true)
    (hj : judge (locationOf tc.args) = .ok response) :
    validateLoop judge all (tc :: rest) =
      if containsSub (upperStr (trimWs response)) (str "AMBIGUOUS") then
        blockedDelta all tc.id (locationOf tc.args) (trimWs response)
      else validateLoop judge all rest := by
  rw [validateLoop_cons, if_pos hn, if_pos hw, hj]

/-- One loop step on a judged call whose judgment failed: fail open. -/
lemma validateLoop_err_step (judge : Str → Except Str Str) (all : List ToolCall)
    (tc : ToolCall) (rest : List ToolCall) (e : Str)
    (hn : tc.name = str "get_weather") (hw : isSingleWord (locationOf tc.args) = true)
    (hj : judge (locationOf tc.args) = .error e) :
    validateLoop judge all (tc :: rest) = validateLoop judge all rest := by
  rw [validateLoop_cons, if_pos hn, if_pos hw, hj]

/-- The validation loop either approves, writing only needsApproval false,
or blocks with the full pending set, which is then non-empty, and a
non-empty approval prompt. -/
lemma validateLoop_spec (judge : Str → Except Str Str) (all : List ToolCall) :
    ∀ rem, rem <:+ all →
      validateLoop judge all rem = { needsApproval := some false }
      ∨ ((validateLoop judge all rem).needsApproval = some true
          ∧ (validateLoop judge all rem).pendingToolCalls = some all
          ∧ all ≠ []
          ∧ ∃ m, (validateLoop judge all rem).approvalMessage = some m ∧ m ≠ []) := by
  intro rem
  induction rem with
  | nil => intro _; left; rfl
  | cons tc rest ih =>
    intro hsuf
    have hrest : rest <:+ all := (List.suffix_cons tc rest).trans hsuf
    have hall : all ≠ [] := by
      intro h
      subst h
      exact List.noConfusion (List.suffix_nil.mp hsuf)
    by_cases hn : tc.name = str "get_weather"
    · by_cases hw : isSingleWord (locationOf tc.args) = true
      · cases hj : judge (locationOf tc.args) with
        | ok response =>
          rw [validateLoop_ok_step judge all tc rest response hn hw hj]
          by_cases ha : containsSub (upperStr (trimWs response)) (str "AMBIGUOUS") = true
          · rw [if_pos ha]
            right
            refine ⟨rfl, rfl, hall, _, rfl, ?_⟩
            apply append_ne_nil_left
            apply append_ne_nil_left
            apply append_ne_nil_left
            apply append_ne_nil_left
            simp [str]
          · rw [if_neg ha]
            exact ih hrest
        | error e =>
          rw [validateLoop_err_step judge all tc rest e hn hw hj]
          exact ih hrest
      · rw [validateLoop_cons, if_pos hn, if_neg hw]
        exact ih hrest
    · rw [validateLoop_cons, if_neg hn]
      exact ih hrest

/-- The validator result depends on the judge only at the locations of
single-word get_weather calls in the examined list. -/
lemma validateLoop_congr (j1 j2 : Str → Except Str Str) (all : List ToolCall) :
    ∀ rem,
      (∀ tc ∈ rem, tc.name = str "get_weather" →
        isSingleWord (locationOf tc.args) = true →
        j1 (locationOf tc.args) = j2 (locationOf tc.args)) →
      validateLoop j1 all rem = validateLoop j2 all rem := by
  intro rem
  induction rem with
  | nil => intro _; rfl
  | cons tc rest ih =>
    intro h
    have hrest := fun tc2 htc2 => h tc2 (List.mem_cons_of_mem tc htc2)
    by_cases hn : tc.name = str "get_weather"
    · by_cases hw : isSingleWord (locationOf tc.args) = true
      · have hj12 := h tc (List.mem_cons_self tc rest) hn hw
        cases hj : j2 (locationOf tc.args) with
        | ok response =>
          rw [validateLoop_ok_step j1 all tc rest response hn hw (hj12.trans hj),
            validateLoop_ok_step j2 all tc rest response hn hw hj]
          by_cases ha : containsSub (upperStr (trimWs response)) (str "AMBIGUOUS") = true
          · rw [if_pos ha, if_pos ha]
          · rw [if_neg ha, if_neg ha]
            exact ih hrest
        | error e =>
          rw [validateLoop_err_step j1 all tc rest e hn hw (hj12.trans hj),
            validateLoop_err_step j2 all tc rest e hn hw hj]
          exact ih hrest
      · rw [validateLoop_cons, validateLoop_cons, if_pos hn, if_pos hn, if_neg hw, if_neg hw]
        exact ih hrest
    · rw [validateLoop_cons, validateLoop_cons, if_neg hn, if_neg hn]
      exact ih hrest

/-- A blocking validation run requires a single-word get_weather call among
the examined tool calls. -/
lemma validateLoop_blocked_mem (judge : Str → Except Str Str) (all : List ToolCall) :
    ∀ rem, (validateLoop judge all rem).needsApproval = some true →
      ∃ tc ∈ rem, tc.name = str "get_weather" ∧ isSingleWord (locationOf tc.args) = true := by
  intro rem
  induction rem with
  | nil => intro h; simp [validateLoop] at h
  | cons tc rest ih =>
    intro h
    rw [validateLoop_cons] at h
    by_cases hn : tc.name = str "get_weather"
    · rw [if_pos hn] at h
      by_cases hw : isSingleWord (locationOf tc.args) = true
      · exact ⟨tc, List.mem_cons_self tc rest, hn, hw⟩
      · rw [if_neg hw] at h
        obtain ⟨tc2, htc2, h2⟩ := ih h
        exact ⟨tc2, List.mem_cons_of_mem tc htc2, h2⟩
    · rw [if_neg hn] at h
      obtain ⟨tc2, htc2, h2⟩ := ih h
      exact ⟨tc2, List.mem_cons_of_mem tc htc2, h2⟩

/-- callTools always yields the pointwise execution of the pending calls. -/
lemma callTools_messages (o : ToolCall → Except Str Str) (s : ChatState) :
    (callTools o s).messages = (toolCallsOfLast s).map (execToolCall o) := by
  unfold callTools
  by_cases h : (toolCallsOfLast s).isEmpty
  · rw [if_pos h]
    rw [List.isEmpty_iff.mp h]
    rfl
  · rw [if_neg h]

/-- Each executed call becomes a ToolMessage carrying its own call id. -/
lemma execToolCall_id (o : ToolCall → Except Str Str) (tc : ToolCall) :
    toolCallIdOf (execToolCall o tc) = some tc.id := by
  unfold execToolCall
  by_cases h : toolNames.contains tc.name = true
  · rw [if_pos h]
    cases o tc <;> rfl
  · rw [if_neg h]
    rfl

/-- A known tool whose invocation rejects yields the error-string message. -/
lemma execToolCall_err (o : ToolCall → Except Str Str) (tc : ToolCall) (e : Str)
    (hk : toolNames.contains tc.name = true) (ho : o tc = .error e) :
    execToolCall o tc = Message.tool (str "Error: " ++ e) tc.id := by
  unfold execToolCall
  rw [if_pos hk, ho]

/-- An unknown tool name yields the tool-not-found message. -/
lemma execToolCall_notfound (o : ToolCall → Except Str Str) (tc : ToolCall)
    (hk : ¬toolNames.contains tc.name = true) :
    execToolCall o tc
      = Message.tool (str "Error: Tool \x22" ++ tc.name ++ str "\x22 not found") tc.id := by
  unfold execToolCall
  rw [if_neg hk]

/-- The result of one call depends only on that call's own settlement. -/
lemma execToolCall_congr {o1 o2 : ToolCall → Except Str Str} (tc : ToolCall)
    (h : o1 tc = o2 tc) : execToolCall o1 tc = execToolCall o2 tc := by
  unfold execToolCall
  rw [h]

/-- A pattern starting with character c can only occur in a list containing c. -/
lemma head_mem_of_isPrefixOf {c : Char} {w m : Str}
    (h : (c :: w).isPrefixOf m = true) : c ∈ m := by
  cases m with
  | nil => simp [List.isPrefixOf] at h
  | cons b t =>
    simp only [List.isPrefixOf, Bool.and_eq_true, beq_iff_eq] at h
    exact h.1 ▸ List.mem_cons_self b t

/-- No word whose first character is not whitespace matches, with word
boundaries, inside an all-whitespace input. -/
lemma hasWord_false_of_ws {m : Str} (hm : ∀ c ∈ m, c.isWhitespace = true)
    {w : Str} (hw : w ≠ []) (hh : (w.headD ' ').isWhitespace = false) :
    hasWord m w = false := by
  cases w with
  | nil => exact absurd rfl hw
  | cons c w2 =>
    by_contra hcon
    rw [Bool.not_eq_false] at hcon
    unfold hasWord at hcon
    rw [List.any_eq_true] at hcon
    obtain ⟨i, _, hcond⟩ := hcon
    rw [Bool.and_eq_true, Bool.and_eq_true] at hcond
    have hpre : (c :: w2).isPrefixOf (m.drop i) = true := hcond.1.1
    have hcm : c ∈ m := List.drop_subset i m (head_mem_of_isPrefixOf hpre)
    have := hm c hcm
    simp only [List.headD_cons] at hh
    rw [this] at hh
    exact Bool.noConfusion hh

/-- Lower-casing preserves whitespace characters. -/
lemma toLower_isWhitespace {c : Char} (h : c.isWhitespace = true) :
    c.toLower.isWhitespace = true := by
  simp only [Char.isWhitespace, Bool.or_eq_true, decide_eq_true_eq] at h
  rcases h with ((h | h) | h) | h <;> subst h <;> decide

/-- Setting a session then reading it back yields the stored conversation. -/
lemma lookupStore_setStore (store : Store) (sid : Str) (c : Conversation) :
    lookupStore (setStore store sid c) sid = some c := by
  induction store with
  | nil => simp [setStore, lookupStore]
  | cons hd tl ih =>
    by_cases hhd : hd.1 = sid
    · have hany : (hd :: tl).any (fun p => decide (p.1 = sid)) = true := by
        simp [List.any_cons, hhd]
      unfold setStore
      rw [if_pos hany]
      simp only [List.map_cons, if_pos hhd]
      unfold lookupStore
      rw [@List.find?_cons_of_pos _ (fun p => decide (p.1 = sid)) (sid, c) _ (by simp)]
      rfl
    · have hne : ¬(fun p : Str × Conversation => decide (p.1 = sid)) hd = true := by
        simp [hhd]
      unfold setStore
      by_cases htl : tl.any (fun p => decide (p.1 = sid)) = true
      · have hany : (hd :: tl).any (fun p => decide (p.1 = sid)) = true := by
          simp [List.any_cons, htl]
        rw [if_pos hany]
        unfold setStore at ih
        rw [if_pos htl] at ih
        simp only [List.map_cons, if_neg hhd]
        unfold lookupStore at ih ⊢
        rw [@List.find?_cons_of_neg _ (fun p => decide (p.1 = sid)) hd _ hne]
        exact ih
      · have hany : ¬(hd :: tl).any (fun p => decide (p.1 = sid)) = true := by
          simp [List.any_cons, htl, hhd]
        rw [if_neg hany]
        unfold setStore at ih
        rw [if_neg htl] at ih
        unfold lookupStore at ih ⊢
        rw [List.cons_append, @List.find?_cons_of_neg _ (fun p => decide (p.1 = sid)) hd _ hne]
        exact ih

/-- The last element of a log extended by one message is that message. -/
lemma lastMsgD_concat (l : List Message) (m : Message) : lastMsgD (l ++ [m]) = m := by
  unfold lastMsgD
  exact List.getLastD_concat _ _ _

/-- analyzeIntent on a successful classification call. -/
lemma analyzeIntent_ok (o : Str → Except Str Str) (s : ChatState) (resp : Str)
    (h : o (lastContent s) = .ok resp) :
    analyzeIntent o s = { userIntent := some (mapDetected (lowerStr (trimWs resp))) } := by
  simp only [analyzeIntent, h]

/-- analyzeIntent on a failed classification call: the keyword fallback. -/
lemma analyzeIntent_err (o : Str → Except Str Str) (s : ChatState) (e : Str)
    (h : o (lastContent s) = .error e) :
    analyzeIntent o s = { userIntent := some (fallbackIntent (lowerStr (lastContent s))) } := by
  simp only [analyzeIntent, h]

/-- The unfolding equation of callTools. -/
lemma callTools_eq (o : ToolCall → Except Str Str) (s : ChatState) :
    callTools o s =
      if (toolCallsOfLast s).isEmpty then { messages := [] }
      else
        { messages := (toolCallsOfLast s).map (execToolCall o)
          needsApproval := some false
          pendingToolCalls := some []
          approvalMessage := some [] } := rfl

/-! ## Oracles for the concrete graph runs -/

/-- Oracles that drive the agent loop forever: the answer model proposes the
same approved calculator call on every invocation. -/
def oLoop : Oracles :=
  { intentLLM := fun _ => .ok (str "question")
    ask := fun _ => (str "Using the calculator.", [calcCall])
    judge := fun _ => .ok (str "CLEAR")
    invokeTool := fun _ => .ok (str "1 + 2 = 3") }

/-- A fresh session carrying one user message, for the loop run. -/
def loopStart : ChatState :=
  { defaultState with messages := [Message.human (str "keep going")] }

/-- Oracles for the greeting scenario: the classifier answers greeting. -/
def oHello : Oracles :=
  { intentLLM := fun _ => .ok (str "greeting")
    ask := fun _ => ([], [])
    judge := fun _ => .ok (str "CLEAR")
    invokeTool := fun _ => .ok [] }

/-- A fresh session carrying the user message hello. -/
def helloStart : ChatState :=
  { defaultState with messages := [Message.human (str "hello")] }

/-- A tool call whose name matches no tool in the tools array. -/
def badCall : ToolCall :=
  { id := str "tc_x1", name := str "make_coffee", args := .searchArgs (str "espresso") }

/-- A web_search call whose invocation will be made to reject. -/
def searchCall : ToolCall :=
  { id := str "tc_s1", name := str "web_search", args := .searchArgs (str "langgraph news") }

/-- A state whose last assistant message carries three tool calls: one
unknown tool, one that will fail, one that will succeed. -/
def stateExec : ChatState :=
  { defaultState with
      messages := [Message.human (str "do things"),
        Message.ai [] [badCall, searchCall, calcCall]] }

/-- Settlements under which the web_search invocation rejects and every
other invocation resolves. -/
def outcomeThrow : ToolCall → Except Str Str :=
  fun tc => if tc.name = str "web_search" then .error (str "Network down") else .ok (str "3")

/-- A chatbot invocation that rejects, modelling AnswerGenerationFailure. -/
def invokeFail : ChatState → Except Str ChatState :=
  fun _ => .error (str "Connection error")

/-- The conversation record created for an unseen session identifier. -/
def emptyConv : Conversation := { messages := [], conversationCount := 0 }

/-- The stored conversation after the endpoint pushes the new user message
and before the chatbot invocation settles. -/
def pushedConv (store : Store) (sid msg : Str) : Conversation :=
  { messages := ((lookupStore store sid).getD emptyConv).messages ++ [Message.human msg],
    conversationCount := ((lookupStore store sid).getD emptyConv).conversationCount }

/-- After the loop answer model runs, the last message carries exactly the
calculator call. -/
lemma toolCallsOfLast_after_question (s : ChatState) :
    toolCallsOfLast (applyDelta s (handleQuestion oLoop.ask s)) = [calcCall] := by
  show toolCallsOf (lastMsgD
    (s.messages ++ [Message.ai (str "Using the calculator.") [calcCall]])) = [calcCall]
  rw [lastMsgD_concat]
  rfl

/-- Under the loop oracles the engine never reaches END from the question,
validate or tools nodes, whatever the fuel. -/
lemma loop_runs_forever : ∀ fuel : Nat,
    (∀ s, runFrom oLoop fuel .questionN s = none)
    ∧ (∀ s, toolCallsOfLast s = [calcCall] → runFrom oLoop fuel .validateN s = none)
    ∧ (∀ s, runFrom oLoop fuel .toolsN s = none) := by
  intro fuel
  induction fuel with
  | zero => exact ⟨fun _ => rfl, fun _ _ => rfl, fun _ => rfl⟩
  | succ n ih =>
    refine ⟨fun s => ?_, fun s hs => ?_, fun s => ?_⟩
    · have h2 : nextNode .questionN (applyDelta s (runNode oLoop .questionN s))
          = some .validateN := by
        show shouldContinue (applyDelta s (handleQuestion oLoop.ask s)) = some .validateN
        unfold shouldContinue
        rw [toolCallsOfLast_after_question s]
        rfl
      simp only [runFrom]
      rw [h2]
      exact ih.2.1 _ (toolCallsOfLast_after_question s)
    · have hval : validateToolCalls oLoop.judge s = { needsApproval := some false } := by
        unfold validateToolCalls
        rw [hs]
        rfl
      have h2 : nextNode .validateN (applyDelta s (runNode oLoop .validateN s))
          = some .toolsN := by
        show needsApprovalRouter (applyDelta s (validateToolCalls oLoop.judge s)) = some .toolsN
        rw [hval]
        rfl
      simp only [runFrom]
      rw [h2]
      exact ih.2.2 _
    · have h2 : nextNode .toolsN (applyDelta s (runNode oLoop .toolsN s))
          = some .questionN := rfl
      simp only [runFrom]
      rw [h2]
      exact ih.1 _

/-! ## Claim theorems -/

/-- C1: evaluation of the blocked path at an assistant message carrying two
tool calls, the ambiguous get_weather call and a calculator call. The
validator blocks and the turn ends at the approval router, but it
synthesizes a placeholder tool-result message only for the ambiguous call
(tool_call_id tc_w1): the calculator call tc_c1, though recorded as
pending, receives no matching tool-result message. -/
theorem validate_blocked_single_placeholder :
    (validateToolCalls judgeAmbiguous stateTwoCalls).needsApproval = some true
    ∧ (validateToolCalls judgeAmbiguous stateTwoCalls).pendingToolCalls
        = some [parisCall, calcCall]
    ∧ (validateToolCalls judgeAmbiguous stateTwoCalls).messages.map toolCallIdOf
        = [some parisCall.id]
    ∧ needsApprovalRouter
        (applyDelta stateTwoCalls (validateToolCalls judgeAmbiguous stateTwoCalls)) = none := by
  decide

/-- C2 (amended): in every state reachable from the default state by merging
node-returned deltas, needsApproval true implies a non-empty pending set and
a non-empty approval prompt. The converse direction of the original claim
fails: approval only writes needsApproval false and does not clear the
stale pending fields (see the counterexample). -/
theorem needsApproval_true_invariant :
    ∀ s, ReachableState s → s.needsApproval = true →
      s.pendingToolCalls ≠ [] ∧ s.approvalMessage ≠ [] := by
  intro s hreach
  induction hreach with
  | init => intro h; exact absurd h (by decide)
  | @step s0 d hr hd ih =>
    cases hd with
    | intent o =>
      obtain ⟨i, hi⟩ := analyzeIntent_shape o s0
      rw [hi]
      intro h
      exact ih h
    | greet => intro h; exact ih h
    | farewell => intro h; exact ih h
    | question ask => intro h; exact ih h
    | validate judge =>
      rcases validateLoop_spec judge (toolCallsOfLast s0) (toolCallsOfLast s0)
          (List.suffix_refl _) with hap | ⟨hna, hp, hall, m, ham, hm⟩
      · intro h
        rw [show validateToolCalls judge s0
            = validateLoop judge (toolCallsOfLast s0) (toolCallsOfLast s0) from rfl, hap] at h
        simp [applyDelta] at h
      · intro _
        constructor
        · rw [show (applyDelta s0 (validateToolCalls judge s0)).pendingToolCalls
              = ((validateLoop judge (toolCallsOfLast s0)
                  (toolCallsOfLast s0)).pendingToolCalls).getD s0.pendingToolCalls from rfl, hp]
          simpa using hall
        · rw [show (applyDelta s0 (validateToolCalls judge s0)).approvalMessage
              = ((validateLoop judge (toolCallsOfLast s0)
                  (toolCallsOfLast s0)).approvalMessage).getD s0.approvalMessage from rfl, ham]
          simpa using hm
    | tools outcome =>
      by_cases hmt : (toolCallsOfLast s0).isEmpty = true
      · rw [show callTools outcome s0 = { messages := [] } from by
          rw [callTools_eq, if_pos hmt]]
        intro h
        exact ih h
      · intro h
        rw [show (applyDelta s0 (callTools outcome s0)).needsApproval
            = ((callTools outcome s0).needsApproval).getD s0.needsApproval from rfl,
          show (callTools outcome s0).needsApproval = some false from by
            rw [callTools_eq, if_neg hmt]] at h
        simp at h

/-- Witness for C2: the reachable blocked state has a non-empty pending set
and a non-empty approval prompt. -/
theorem needsApproval_true_invariant_witness :
    sB.pendingToolCalls ≠ [] ∧ sB.approvalMessage ≠ [] :=
  needsApproval_true_invariant sB
    (ReachableState.step
      (ReachableState.step ReachableState.init (NodeDelta.question askParis))
      (NodeDelta.validate judgeAmbiguous))
    (by decide)

/-- C2 counterexample: a reachable state (blocked turn, then a next turn
whose calculator call the validator approves) with needsApproval false but
a stale non-empty pendingToolCalls, refuting the claimed equivalence. -/
theorem hitl_invariant_counterexample :
    ReachableState sE ∧ sE.needsApproval = false ∧ sE.pendingToolCalls ≠ [] := by
  refine ⟨?_, by decide, by decide⟩
  exact ReachableState.step
    (ReachableState.step
      (ReachableState.step
        (ReachableState.step
          (ReachableState.step ReachableState.init (NodeDelta.question askParis))
          (NodeDelta.validate judgeAmbiguous))
        (NodeDelta.intent (fun _ => .ok (str "question"))))
      (NodeDelta.question askCalc))
    (NodeDelta.validate judgeAmbiguous)

/-- C3: the tool-execution node returns exactly one tool-result message per
tool call of the last assistant message, correlated positionally by
tool_call_id; a rejecting invocation of a known tool yields the
error-string message for that call, an unknown tool name yields the
tool-not-found message, and the message of each call depends only on that
call's own settlement, so one failure cannot affect the other results. -/
theorem callTools_per_call_results :
    ∀ (o : ToolCall → Except Str Str) (s : ChatState),
      (callTools o s).messages.length = (toolCallsOfLast s).length
      ∧ (∀ i (h1 : i < (callTools o s).messages.length)
          (h2 : i < (toolCallsOfLast s).length),
          toolCallIdOf ((callTools o s).messages[i]) = some ((toolCallsOfLast s)[i]).id)
      ∧ (∀ i (h1 : i < (callTools o s).messages.length)
          (h2 : i < (toolCallsOfLast s).length) (e : Str),
          toolNames.contains ((toolCallsOfLast s)[i]).name = true →
          o ((toolCallsOfLast s)[i]) = .error e →
          (callTools o s).messages[i]
            = Message.tool (str "Error: " ++ e) ((toolCallsOfLast s)[i]).id)
      ∧ (∀ i (h1 : i < (callTools o s).messages.length)
          (h2 : i < (toolCallsOfLast s).length),
          ¬toolNames.contains ((toolCallsOfLast s)[i]).name = true →
          (callTools o s).messages[i]
            = Message.tool (str "Error: Tool \x22" ++ ((toolCallsOfLast s)[i]).name
                ++ str "\x22 not found") ((toolCallsOfLast s)[i]).id)
      ∧ (∀ (o2 : ToolCall → Except Str Str) i
          (h1 : i < (callTools o s).messages.length)
          (h1' : i < (callTools o2 s).messages.length)
          (h2 : i < (toolCallsOfLast s).length),
          o ((toolCallsOfLast s)[i]) = o2 ((toolCallsOfLast s)[i]) →
          (callTools o s).messages[i] = (callTools o2 s).messages[i]) := by
  intro o s
  refine ⟨?_, ?_, ?_, ?_, ?_⟩
  · rw [callTools_messages, List.length_map]
  · intro i h1 h2
    simp only [callTools_messages, List.getElem_map]
    exact execToolCall_id o _
  · intro i h1 h2 e hk ho
    simp only [callTools_messages, List.getElem_map]
    exact execToolCall_err o _ e hk ho
  · intro i h1 h2 hk
    simp only [callTools_messages, List.getElem_map]
    exact execToolCall_notfound o _ hk
  · intro o2 i h1 h1' h2 hoo
    simp only [callTools_messages, List.getElem_map]
    exact execToolCall_congr _ hoo

/-- Witness for C3 at a batch of three calls: an unknown tool, a rejecting
web_search, and a calculator call; the batch yields three messages, the
failing call yields its error string, the unknown call its not-found
string. -/
theorem callTools_per_call_results_witness :
    (callTools outcomeThrow stateExec).messages.length = (toolCallsOfLast stateExec).length
    ∧ toolCallIdOf ((callTools outcomeThrow stateExec).messages.get ⟨1, by decide⟩)
        = some searchCall.id
    ∧ (callTools outcomeThrow stateExec).messages.get ⟨1, by decide⟩
        = Message.tool (str "Error: " ++ str "Network down") searchCall.id
    ∧ (callTools outcomeThrow stateExec).messages.get ⟨0, by decide⟩
        = Message.tool (str "Error: Tool \x22" ++ badCall.name ++ str "\x22 not found")
            badCall.id :=
  ⟨(callTools_per_call_results outcomeThrow stateExec).1,
   (callTools_per_call_results outcomeThrow stateExec).2.1 1 (by decide) (by decide),
   (callTools_per_call_results outcomeThrow stateExec).2.2.1 1 (by decide) (by decide)
     (str "Network down") (by decide) rfl,
   (callTools_per_call_results outcomeThrow stateExec).2.2.2.1 0 (by decide) (by decide)
     (by decide)⟩

/-- C4 counterexample: when the chatbot invocation rejects, the endpoint
returns the single error but the new user message is already committed to
the stored conversation log, so the claimed all-or-nothing rollback of the
turn does not hold and a retry would duplicate the user message. -/
theorem chat_failure_commits_user_message :
    (chatApi invokeFail [] (str "s1") (str "hi")).2 = .error (str "Connection error")
    ∧ lookupStore (chatApi invokeFail [] (str "s1") (str "hi")).1 (str "s1")
        = some { messages := [Message.human (str "hi")], conversationCount := 0 } :=
  ⟨rfl, by decide⟩

/-- C4 (amended): when the chatbot invocation fails, the endpoint answers
with the single turn-level error, and the stored conversation keeps the
previous log with the new user message appended and the previous count:
no assistant output or count update is committed, but the user message is
not rolled back, so a retry appends it again. -/
theorem chat_failure_aborts_turn :
    ∀ (invoke : ChatState → Except Str ChatState) (store : Store) (sid msg e : Str),
      msg ≠ [] →
      invoke (serverGraphInput (pushedConv store sid msg)) = .error e →
      (chatApi invoke store sid msg).2 = .error e
      ∧ lookupStore (chatApi invoke store sid msg).1 sid
          = some (pushedConv store sid msg) := by
  intro invoke store sid msg e hmsg hinv
  simp only [pushedConv, emptyConv] at hinv
  unfold chatApi
  rw [if_neg hmsg]
  constructor
  · simp only [hinv]
  · simp only [hinv]
    exact lookupStore_setStore store sid _

/-- Witness for C4 (amended) at a failing invocation on a fresh session. -/
theorem chat_failure_aborts_turn_witness :
    (chatApi invokeFail [] (str "s1") (str "hi")).2 = .error (str "Connection error")
    ∧ lookupStore (chatApi invokeFail [] (str "s1") (str "hi")).1 (str "s1")
        = some (pushedConv [] (str "s1") (str "hi")) :=
  chat_failure_aborts_turn invokeFail [] (str "s1") (str "hi")
    (str "Connection error") (by decide) rfl

/-- C5: intent classification always lands on greeting, farewell or
question, never unknown; an LLM output recognizing none of the three labels
defaults to question; a failed LLM call falls back to the keyword heuristic,
which itself defaults to question when no greeting or farewell keyword
matches; and an all-whitespace (in particular empty) input classifies as
question under that heuristic. -/
theorem analyzeIntent_spec :
    (∀ (o : Str → Except Str Str) (s : ChatState),
      ∃ i, (analyzeIntent o s).userIntent = some i ∧ i ≠ Intent.unknown)
    ∧ (∀ (o : Str → Except Str Str) (s : ChatState) (resp : Str),
        o (lastContent s) = .ok resp →
        containsSub (lowerStr (trimWs resp)) (str "greeting") = false →
        containsSub (lowerStr (trimWs resp)) (str "farewell") = false →
        (analyzeIntent o s).userIntent = some Intent.question)
    ∧ (∀ (o : Str → Except Str Str) (s : ChatState) (e : Str),
        o (lastContent s) = .error e →
        (analyzeIntent o s).userIntent = some (fallbackIntent (lowerStr (lastContent s))))
    ∧ (∀ l : Str, hasAnyWord l greetingWords = false →
        hasAnyWord l farewellWords = false → fallbackIntent l = Intent.question)
    ∧ (∀ l : Str, l.all Char.isWhitespace = true →
        fallbackIntent (lowerStr l) = Intent.question) := by
  refine ⟨?_, ?_, ?_, ?_, ?_⟩
  · intro o s
    cases h : o (lastContent s) with
    | ok r =>
      rw [analyzeIntent_ok o s r h]
      exact ⟨_, rfl, mapDetected_ne_unknown _⟩
    | error e =>
      rw [analyzeIntent_err o s e h]
      exact ⟨_, rfl, fallbackIntent_ne_unknown _⟩
  · intro o s resp h h1 h2
    rw [analyzeIntent_ok o s resp h]
    unfold mapDetected
    rw [if_neg (by simp [h1]), if_neg (by simp [h2]), ite_self]
  · intro o s e h
    rw [analyzeIntent_err o s e h]
  · intro l h1 h2
    unfold fallbackIntent
    rw [if_neg (by simp [h1]), if_neg (by simp [h2])]
  · intro l hws
    have hm : ∀ c ∈ lowerStr l, c.isWhitespace = true := by
      intro c hc
      rw [lowerStr, List.mem_map] at hc
      obtain ⟨a, ha, rfl⟩ := hc
      exact toLower_isWhitespace (List.all_eq_true.mp hws a ha)
    have hnone : ∀ ws : List Str,
        (∀ w ∈ ws, w ≠ [] ∧ (w.headD ' ').isWhitespace = false) →
        hasAnyWord (lowerStr l) ws = false := by
      intro ws hword
      by_contra hcon
      rw [Bool.not_eq_false] at hcon
      unfold hasAnyWord at hcon
      rw [List.any_eq_true] at hcon
      obtain ⟨w, hw, hww⟩ := hcon
      rw [hasWord_false_of_ws hm (hword w hw).1 (hword w hw).2] at hww
      exact Bool.noConfusion hww
    have hg : hasAnyWord (lowerStr l) greetingWords = false := by
      apply hnone
      intro w hw
      fin_cases hw <;> exact ⟨by decide, by decide⟩
    have hf : hasAnyWord (lowerStr l) farewellWords = false := by
      apply hnone
      intro w hw
      fin_cases hw <;> exact ⟨by decide, by decide⟩
    unfold fallbackIntent
    rw [if_neg (by simp [hg]), if_neg (by simp [hf])]

/-- Witness for C5: an unrecognized classification answer yields question,
and a failed classification of a whitespace-only input yields question. -/
theorem analyzeIntent_spec_witness :
    (analyzeIntent (fun _ => Except.ok (str "no idea")) helloStart).userIntent
      = some Intent.question
    ∧ (analyzeIntent (fun _ => Except.error (str "timeout"))
        { defaultState with messages := [Message.human (str "   ")] }).userIntent
      = some Intent.question :=
  ⟨analyzeIntent_spec.2.1 (fun _ => Except.ok (str "no idea")) helloStart
      (str "no idea") rfl (by decide) (by decide),
   (analyzeIntent_spec.2.2.1 (fun _ => Except.error (str "timeout"))
        { defaultState with messages := [Message.human (str "   ")] }
        (str "timeout") rfl).trans
      (congrArg some (analyzeIntent_spec.2.2.2.2
        (lastContent { defaultState with messages := [Message.human (str "   ")] })
        (by decide)))⟩

/-- C6: the router after the question node goes to validation exactly when
the last message carries at least one tool call and to END otherwise, and
the router after the validation node goes to END exactly when needsApproval
is set and to tool execution otherwise. -/
theorem routers_spec :
    ∀ s : ChatState,
      (shouldContinue s = some Node.validateN ↔ toolCallsOfLast s ≠ [])
      ∧ (shouldContinue s = none ↔ toolCallsOfLast s = [])
      ∧ (needsApprovalRouter s = none ↔ s.needsApproval = true)
      ∧ (needsApprovalRouter s = some Node.toolsN ↔ s.needsApproval = false) := by
  intro s
  rcases hl : toolCallsOfLast s with _ | ⟨tc, rest⟩ <;> cases hb : s.needsApproval <;>
    simp [shouldContinue, needsApprovalRouter, hl, hb]

/-- Witness for C6 at concrete states: a two-call assistant message routes
to validation, and the blocked state routes to END. -/
theorem routers_spec_witness :
    shouldContinue stateTwoCalls = some Node.validateN ∧ needsApprovalRouter sB = none :=
  ⟨(routers_spec stateTwoCalls).1.mpr (by decide),
   (routers_spec sB).2.2.1.mpr (by decide)⟩

/-- C7: the validator consults the ambiguity judge only on get_weather calls
whose location has no comma and no space: its whole result is unchanged by
any judge disagreement outside those locations, and a blocked result
requires such a call to be present, so no other tool call can by itself
cause the turn to block. -/
theorem validator_scope :
    ∀ (s : ChatState) (j1 j2 : Str → Except Str Str),
      ((∀ tc ∈ toolCallsOfLast s, tc.name = str "get_weather" →
          isSingleWord (locationOf tc.args) = true →
          j1 (locationOf tc.args) = j2 (locationOf tc.args)) →
        validateToolCalls j1 s = validateToolCalls j2 s)
      ∧ ((validateToolCalls j1 s).needsApproval = some true →
          ∃ tc ∈ toolCallsOfLast s, tc.name = str "get_weather"
            ∧ isSingleWord (locationOf tc.args) = true) := by
  intro s j1 j2
  constructor
  · intro h
    exact validateLoop_congr j1 j2 _ _ h
  · intro h
    exact validateLoop_blocked_mem j1 _ _ h

/-- Witness for C7 at the two-call state. -/
theorem validator_scope_witness :
    validateToolCalls judgeAmbiguous stateTwoCalls
      = validateToolCalls (fun l => judgeAmbiguous l) stateTwoCalls
    ∧ ∃ tc ∈ toolCallsOfLast stateTwoCalls, tc.name = str "get_weather"
        ∧ isSingleWord (locationOf tc.args) = true :=
  ⟨(validator_scope stateTwoCalls judgeAmbiguous (fun l => judgeAmbiguous l)).1
      (fun tc _ _ _ => rfl),
   (validator_scope stateTwoCalls judgeAmbiguous judgeAmbiguous).2 (by decide)⟩

/-- C8: the engine has no iteration cap: for every fuel bound n there are
oracles whose every answer carries an approved tool call under which the
run entered at analyzeIntent is still looping when the bound runs out. -/
theorem no_loop_bound :
    ∀ n : Nat, ∃ (o : Oracles) (s0 : ChatState),
      (∀ log : List Message, 0 < (o.ask log).2.length)
      ∧ invokeGraph o n s0 = none := by
  intro n
  refine ⟨oLoop, loopStart, fun _ => Nat.one_pos, ?_⟩
  cases n with
  | zero => rfl
  | succ m =>
    have h2 : nextNode .analyzeIntentN
        (applyDelta loopStart (runNode oLoop .analyzeIntentN loopStart))
        = some .questionN := by decide
    simp only [invokeGraph, runFrom]
    rw [h2]
    exact (loop_runs_forever m).1 _

/-- C9: the greeting and farewell handlers append exactly their fixed
response and bump the exchange counter, leaving every other field and all
earlier log entries unchanged; and the full graph run on a fresh session
with input hello classifies greeting, answers with the fixed greeting text,
reaches count 1 and performs no tool calls. -/
theorem handlers_frame_and_hello :
    (∀ s : ChatState, applyDelta s (handleGreeting s)
      = { s with messages := s.messages ++ [Message.ai greetingText []]
                 conversationCount := s.conversationCount + 1 })
    ∧ (∀ s : ChatState, applyDelta s (handleFarewell s)
      = { s with messages := s.messages ++ [Message.ai farewellText []]
                 conversationCount := s.conversationCount + 1 })
    ∧ invokeGraph oHello 3 helloStart = some
        { messages := [Message.human (str "hello"), Message.ai greetingText []]
          userIntent := .greeting
          conversationCount := 1
          needsApproval := false
          pendingToolCalls := []
          approvalMessage := [] } :=
  ⟨fun _ => rfl, fun _ => rfl, by decide⟩

/-- C10: the calculator tool answers divide-by-zero with the fixed error
string instead of dividing, and on each of the four schema operations it
returns a non-empty string through ordinary control flow, with the error
branch the only outcome on a zero divisor. -/
theorem calculator_divide_by_zero :
    (∀ a : Rat, calculatorTool (str "divide") a 0 = str "Error: Cannot divide by zero")
    ∧ (∀ (op : Str) (a b : Rat), op ∈ calcOps → calculatorTool op a b ≠ []) := by
  constructor
  · intro a
    unfold calculatorTool
    rw [if_neg (by decide), if_neg (by decide), if_neg (by decide), if_pos rfl, if_pos rfl]
  · intro op a b h
    simp only [calcOps, List.mem_cons, List.not_mem_nil, or_false] at h
    rcases h with h | h | h | h <;> subst h <;> unfold calculatorTool
    · rw [if_pos rfl]
      exact append_ne_nil_left _ (append_ne_nil_right _ (by decide))
    · rw [if_neg (by decide), if_pos rfl]
      exact append_ne_nil_left _ (append_ne_nil_right _ (by decide))
    · rw [if_neg (by decide), if_neg (by decide), if_pos rfl]
      exact append_ne_nil_left _ (append_ne_nil_right _ (by decide))
    · rw [if_neg (by decide), if_neg (by decide), if_neg (by decide), if_pos rfl]
      by_cases hb : b = 0
      · rw [if_pos hb]
        decide
      · rw [if_neg hb]
        exact append_ne_nil_left _ (append_ne_nil_right _ (by decide))

/-- Witness for C10 at concrete operands. -/
theorem calculator_divide_by_zero_witness :
    calculatorTool (str "divide") 5 0 = str "Error: Cannot divide by zero"
    ∧ calculatorTool (str "multiply") 25 4 ≠ [] :=
  ⟨calculator_divide_by_zero.1 5,
   calculator_divide_by_zero.2 (str "multiply") 25 4 (by decide)⟩

end Chatbot


